import Mathlib

/-!
Shallow embedding of the `axum-swagger-ui` path-resolution logic
(`src/axum-swagger-ui/src/lib.rs`) and proofs about it.

The embedding models:
* `redirect_index` — the mount-root redirect handler (lib.rs lines 54-62);
* `mime_type` — content-type derivation from a path (lib.rs lines 64-69);
* `handle_path` — the path resolver (lib.rs lines 71-100).

Rust strings are modelled as Lean `String`; byte bodies as `List Nat`
(code points of the ASCII serialisations involved).  Rust string
operations used by the source (`trim_start_matches "/"`,
`trim_end_matches "/"`, `split "."`, `str::replace`) are given
structural Lean implementations faithful to their Rust semantics so
that every definition evaluates by kernel reduction.
-/

/-- Characters of a Rust `&str`, split at every occurrence of the
separator character, mirroring Rust `str::split` with a one-character
pattern: the result always has at least one (possibly empty) segment. -/
def splitOnChar (sep : Char) : List Char → List (List Char)
  | [] => [[]]
  | c :: cs =>
      let r := splitOnChar sep cs
      if c = sep then [] :: r
      else
        match r with
        | [] => [[c]]
        | h :: t => (c :: h) :: t

/-- Rust `str::trim_start_matches("/")`: remove every leading slash. -/
def trimStartSlashes (s : String) : String :=
  String.mk (s.toList.dropWhile (fun c => c = '/'))

/-- Rust `str::trim_end_matches("/")`: remove every trailing slash. -/
def trimEndSlashes (s : String) : String :=
  String.mk ((s.toList.reverse.dropWhile (fun c => c = '/')).reverse)

/-- Rust `str::replace(pat, rep)` on character lists: replace every
leftmost non-overlapping occurrence of `pat`, scanning left to right.
The fuel argument (instantiated with the list length) only serves
structural termination; it never runs out for a non-empty pattern. -/
def replaceFuel (pat rep : List Char) : Nat → List Char → List Char
  | _, [] => []
  | 0, l => l
  | Nat.succ n, c :: cs =>
      if pat.isPrefixOf (c :: cs) then
        rep ++ replaceFuel pat rep n ((c :: cs).drop pat.length)
      else
        c :: replaceFuel pat rep n cs

/-- Rust `str::replace` on strings (pattern assumed non-empty, as in
the one call site of the source). -/
def rustReplace (s pat rep : String) : String :=
  String.mk (replaceFuel pat.toList rep.toList s.toList.length s.toList)

/-- Bytes of a textual body (code points; all text involved is ASCII). -/
def strBytes (s : String) : List Nat :=
  s.toList.map Char.toNat

/-- Modelled from the spec: the "standard extension table" of the
external `mime_guess` crate (an external collaborator, not part of this
repository).  Only the entries relevant to the claims are listed; the
real table is a superset, and maps `json`, `html`, `css`, `png` exactly
as below.  Extensions are matched in the lowercase form in which every
bundle path and every input of the claims presents them. -/
def mimeGuessTable (ext : String) : Option String :=
  if ext = "json" then some "application/json"
  else if ext = "html" then some "text/html"
  else if ext = "css" then some "text/css"
  else if ext = "png" then some "image/png"
  else none

/-- Model of `mime_guess::from_ext`. -/
def from_ext (ext : String) : Option String :=
  mimeGuessTable ext

/-- The extension the source extracts:
`filename.split(".").last().unwrap_or_default()`.  Rust `split` always
yields at least one segment, so `last()` is never `None` and the
default branch is dead; for a dotless path the final segment is the
whole path. -/
def extOfPath (filename : String) : String :=
  String.mk (((splitOnChar '.' filename.toList).getLast?).getD [])

/-- Embedding of `mime_type` (lib.rs lines 64-69):
`mime_guess::from_ext(filename.split(".").last().unwrap_or_default()).first_or_octet_stream()`. -/
def mime_type (filename : String) : String :=
  (from_ext (extOfPath filename)).getD "application/octet-stream"

/-- Follows the spec words of the content-type derivation claim: the
extension is "the final segment — the empty string when the path
contains no `'.'`".  Compared against `mime_type`, which embeds the
source. -/
def extOfPathClaim (filename : String) : String :=
  if filename.toList.contains '.' then extOfPath filename else ""

/-- Content-type derivation as the claim describes it (spec-words
version, to be compared with the source embedding `mime_type`). -/
def mime_type_claim (filename : String) : String :=
  (from_ext (extOfPathClaim filename)).getD "application/octet-stream"

/-- Inline specification: a name and a byte payload (`swagger_ui::Spec`). -/
structure Spec where
  name : String
  content : List Nat
deriving DecidableEq, Repr

/-- The two specification sources (`swagger_ui::SpecOrUrl`). -/
inductive SpecOrUrl where
  | spec (s : Spec)
  | url (u : String)
deriving DecidableEq, Repr

/-- Modelled from the spec: `swagger_ui::Config` (defined in the
repository's `swagger-ui` crate, which is not under `src/`) is "a
record with a `url` field (string, mutable — overwritten per request)
plus arbitrary additional display options (opaque to the resolver,
passed through as JSON)".  The opaque options are modelled as a list of
key/value pairs of already-serialised JSON fragments. -/
structure Config where
  url : String
  options : List (String × String)
deriving DecidableEq, Repr

/-- Modelled from the spec: JSON serialisation of a `Config`, a JSON
object holding the `url` string field followed by the opaque display
options, each passed through verbatim. -/
def Config.toJson (c : Config) : String :=
  "\x7b\"url\":\"" ++ c.url ++ "\"" ++
    String.join (c.options.map (fun kv => ",\"" ++ kv.1 ++ "\":" ++ kv.2)) ++ "\x7d"

/-- The reserved configuration path literal of lib.rs line 82. -/
def cfgLiteral : String := "swagger-ui-config.json"

/-- The per-request configuration copy built in lib.rs lines 83-91:
clone the base configuration and overwrite its `url` field — for an
inline spec, with `original.path().replace("swagger-ui-config.json", name)`
(Rust `replace` replaces every occurrence); for a URL, with the URL. -/
def requestConfig (sp : SpecOrUrl) (originalPath : String) (c : Config) : Config :=
  match sp with
  | SpecOrUrl.spec s => Config.mk (rustReplace originalPath cfgLiteral s.name) c.options
  | SpecOrUrl.url u => Config.mk u c.options

/-- An HTTP response descriptor: status, optional content-type, body bytes. -/
structure Response where
  status : Nat
  contentType : Option String
  body : List Nat
deriving DecidableEq, Repr

/-- A redirect response descriptor: status and Location target. -/
structure RedirectResponse where
  status : Nat
  location : String
deriving DecidableEq, Repr

/-- Embedding of `redirect_index` (lib.rs lines 54-62): trim trailing
slashes from the original path, append `/index.html`, and append the
query after `?` when present.  `Redirect::permanent` is status 308. -/
def redirect_index (originalPath : String) (query : Option String) : RedirectResponse :=
  match query with
  | some q => RedirectResponse.mk 308 (trimEndSlashes originalPath ++ "/index.html?" ++ q)
  | none => RedirectResponse.mk 308 (trimEndSlashes originalPath ++ "/index.html")

/-- Embedding of `handle_path` (lib.rs lines 71-100).  The asset bundle
(`swagger_ui::Assets`, an external build-time embedding) is abstracted
as a lookup function from relative path to byte content.  `uriPath` is
the nested-router path, `originalPath` the original full request path. -/
def handle_path (assets : String → Option (List Nat)) (uriPath originalPath : String)
    (sp : SpecOrUrl) (c : Config) : Response :=
  match assets (trimStartSlashes uriPath) with
  | some asset => Response.mk 200 (some (mime_type (trimStartSlashes uriPath))) asset
  | none =>
      if trimStartSlashes uriPath = cfgLiteral then
        Response.mk 200 (some "application/json")
          (strBytes ((requestConfig sp originalPath c).toJson))
      else
        match sp with
        | SpecOrUrl.spec s =>
            if trimStartSlashes uriPath = trimStartSlashes s.name then
              Response.mk 200 (some "application/json") s.content
            else
              Response.mk 404 none []
        | SpecOrUrl.url _ => Response.mk 404 none []

/-- The four classification outcomes of the resolver. -/
inductive Outcome where
  | asset (body : List Nat)
  | cfg
  | doc (body : List Nat)
  | miss
deriving DecidableEq, Repr

/-- Follows the spec words: classify an (already stripped) path in the
fixed priority order — asset-bundle match first, then the literal
configuration path, then (inline-spec mode only) the spec name,
otherwise no match. -/
def classifyPath (assets : String → Option (List Nat)) (sp : SpecOrUrl)
    (path : String) : Outcome :=
  match assets path with
  | some b => Outcome.asset b
  | none =>
      if path = cfgLiteral then Outcome.cfg
      else
        match sp with
        | SpecOrUrl.spec s =>
            if path = trimStartSlashes s.name then Outcome.doc s.content
            else Outcome.miss
        | SpecOrUrl.url _ => Outcome.miss

/-- Response rendered for each classification outcome. -/
def renderOutcome (path originalPath : String) (sp : SpecOrUrl) (c : Config) :
    Outcome → Response
  | Outcome.asset b => Response.mk 200 (some (mime_type path)) b
  | Outcome.cfg =>
      Response.mk 200 (some "application/json")
        (strBytes ((requestConfig sp originalPath c).toJson))
  | Outcome.doc b => Response.mk 200 (some "application/json") b
  | Outcome.miss => Response.mk 404 none []

/-- Follows the spec words of the configuration-URL claim: the original
request path in which the trailing `"swagger-ui-config.json"` segment —
and only it — is replaced by the given name. -/
def configUrlClaim (originalPath name : String) : String :=
  if cfgLiteral.toList.isSuffixOf originalPath.toList then
    String.mk
      (originalPath.toList.take (originalPath.toList.length - cfgLiteral.toList.length)
        ++ name.toList)
  else originalPath

/-- The immutable state shared by all requests of one mount
(lib.rs lines 42-43: the `Arc`-wrapped configuration and spec, plus the
process-wide asset bundle). -/
structure MountState where
  assets : String → Option (List Nat)
  sp : SpecOrUrl
  config : Config

/-- One request served against the mount state, with the state threaded
explicitly: the handler reads the shared state and returns it
untouched — the only mutation in the source acts on the per-request
clone built by `requestConfig`. -/
def handle_path_st (st : MountState) (uriPath originalPath : String) :
    Response × MountState :=
  (handle_path st.assets uriPath originalPath st.sp st.config, st)

/-- A sequence of requests served one after the other, threading the
mount state through every request. -/
def serveAll (st : MountState) : List (String × String) → List Response × MountState
  | [] => ([], st)
  | r :: rest =>
      let x := handle_path_st st r.1 r.2
      let y := serveAll x.2 rest
      (x.1 :: y.1, y.2)

/-- A tiny concrete asset bundle used by the witnesses. -/
def sampleAssets : String → Option (List Nat) :=
  fun k => if k = "index.html" then some (strBytes "<html>") else none

/-- An empty asset bundle used by the witnesses. -/
def emptyAssets : String → Option (List Nat) := fun _ => none

/-- A concrete inline spec used by the witnesses. -/
def sampleSpec : Spec := Spec.mk "openapi.json" (strBytes "\x7b\x7d")

/-- An inline spec whose name collides with a bundle asset path. -/
def collideSpec : Spec := Spec.mk "index.html" (strBytes "x")

/-- A concrete base configuration used by the witnesses. -/
def sampleConfig : Config := Config.mk "" []

/-- Appending strings is associative (proved on the underlying
character lists). -/
theorem str_append_assoc (a b c : String) : a ++ b ++ c = a ++ (b ++ c) := by
  cases a with
  | mk la =>
    cases b with
    | mk lb =>
      cases c with
      | mk lc =>
        show String.mk (la ++ lb ++ lc) = String.mk (la ++ (lb ++ lc))
        rw [List.append_assoc]

/-- Rebuilding a string from its character list is the identity. -/
theorem string_mk_toList (s : String) : String.mk s.toList = s := rfl

/-- Prepending a slash is absorbed by `trimStartSlashes`. -/
theorem trimStartSlashes_slash (u : String) :
    trimStartSlashes ("/" ++ u) = trimStartSlashes u := by
  cases u with
  | mk d =>
    show trimStartSlashes (String.mk ('/' :: d)) = trimStartSlashes (String.mk d)
    simp [trimStartSlashes, String.toList, List.dropWhile]

/-- Splitting a list that does not contain the separator yields the
whole list as the single segment. -/
theorem splitOnChar_of_not_mem {sep : Char} {l : List Char} (h : sep ∉ l) :
    splitOnChar sep l = [l] := by
  induction l with
  | nil => rfl
  | cons c cs ih =>
    rw [List.mem_cons, not_or] at h
    unfold splitOnChar
    rw [if_neg (fun hc => h.1 hc.symm), ih h.2]

/-- C4: for every request to the bare mount root with original path `p`
and optional query `q`, the response is a 308 permanent redirect whose
target is `p` with all trailing slashes trimmed followed by
`"/index.html"`, suffixed by `"?" ++ q` exactly when a query is present
and by nothing otherwise. -/
theorem redirect_index_target :
    (∀ p q : String, redirect_index p (some q) =
      RedirectResponse.mk 308 (trimEndSlashes p ++ "/index.html" ++ "?" ++ q)) ∧
    (∀ p : String, redirect_index p none =
      RedirectResponse.mk 308 (trimEndSlashes p ++ "/index.html")) := by
  constructor
  · intro p q
    rw [str_append_assoc (trimEndSlashes p) "/index.html" "?"]
    rfl
  · intro p
    rfl

/-- C6: for every path that is a key present in the asset bundle, the
response is 200 with body the bundle's stored bytes for that key and
content-type derived from the path's extension, regardless of the
`SpecOrUrl` variant and the configuration. -/
theorem asset_match_serves_bundle_bytes :
    ∀ (assets : String → Option (List Nat)) (uriPath originalPath : String)
      (sp : SpecOrUrl) (c : Config) (b : List Nat),
      assets (trimStartSlashes uriPath) = some b →
      handle_path assets uriPath originalPath sp c =
        Response.mk 200 (some (mime_type (trimStartSlashes uriPath))) b := by
  intro assets uriPath originalPath sp c b h
  unfold handle_path
  rw [h]

/-- Witness for C6 at a concrete bundle, path, spec and configuration. -/
theorem asset_match_serves_bundle_bytes_witness :
    handle_path sampleAssets "/index.html" "/docs/index.html"
        (SpecOrUrl.spec sampleSpec) sampleConfig =
      Response.mk 200 (some (mime_type (trimStartSlashes "/index.html")))
        (strBytes "<html>") :=
  asset_match_serves_bundle_bytes sampleAssets "/index.html" "/docs/index.html"
    (SpecOrUrl.spec sampleSpec) sampleConfig (strBytes "<html>") (by decide)

/-- C7: every request path that is not an asset key, not the
configuration literal, and not the inline spec name, yields the 404
outcome of the classification with an empty body. -/
theorem unmatched_path_404 :
    ∀ (assets : String → Option (List Nat)) (uriPath originalPath : String)
      (sp : SpecOrUrl) (c : Config),
      assets (trimStartSlashes uriPath) = none →
      trimStartSlashes uriPath ≠ cfgLiteral →
      (∀ s : Spec, sp = SpecOrUrl.spec s →
        trimStartSlashes uriPath ≠ trimStartSlashes s.name) →
      handle_path assets uriPath originalPath sp c = Response.mk 404 none [] := by
  intro assets uriPath originalPath sp c ha hc hs
  cases sp with
  | spec s => simp [handle_path, ha, hc, hs s rfl]
  | url u => simp [handle_path, ha, hc]

/-- Witness for C7 at a concrete unmatched path. -/
theorem unmatched_path_404_witness :
    handle_path emptyAssets "/does-not-exist" "/docs/does-not-exist"
        (SpecOrUrl.spec sampleSpec) sampleConfig = Response.mk 404 none [] :=
  unmatched_path_404 emptyAssets "/does-not-exist" "/docs/does-not-exist"
    (SpecOrUrl.spec sampleSpec) sampleConfig rfl (by decide)
    (fun s hs => by injection hs with h; subst h; decide)

/-- C5: with an inline spec, a stripped path equal to the spec's name
(leading slashes stripped) that matched neither an asset nor the
configuration literal is answered 200, `application/json`, with the
spec's content byte-for-byte; with the URL variant, no path ever
classifies as the spec-document outcome. -/
theorem spec_doc_match :
    (∀ (assets : String → Option (List Nat)) (uriPath originalPath : String)
       (s : Spec) (c : Config),
       trimStartSlashes uriPath = trimStartSlashes s.name →
       assets (trimStartSlashes uriPath) = none →
       trimStartSlashes uriPath ≠ cfgLiteral →
       handle_path assets uriPath originalPath (SpecOrUrl.spec s) c =
         Response.mk 200 (some "application/json") s.content) ∧
    (∀ (assets : String → Option (List Nat)) (u p : String) (b : List Nat),
       classifyPath assets (SpecOrUrl.url u) p ≠ Outcome.doc b) := by
  constructor
  · intro assets uriPath originalPath s c hn ha hc
    simp only [handle_path, ha]
    rw [if_neg hc, if_pos hn]
  · intro assets u p b h
    unfold classifyPath at h
    cases ha : assets p with
    | some b' => rw [ha] at h; exact Outcome.noConfusion h
    | none =>
      rw [ha] at h
      by_cases hc : p = cfgLiteral
      · rw [if_pos hc] at h; exact Outcome.noConfusion h
      · rw [if_neg hc] at h; exact Outcome.noConfusion h

/-- Witness for C5: the concrete inline spec is served at its name, and
a concrete URL mount never classifies a path as the spec document. -/
theorem spec_doc_match_witness :
    handle_path emptyAssets "/openapi.json" "/docs/openapi.json"
        (SpecOrUrl.spec sampleSpec) sampleConfig =
      Response.mk 200 (some "application/json") sampleSpec.content ∧
    classifyPath emptyAssets (SpecOrUrl.url "https://example.com/spec.json")
        "openapi.json" ≠ Outcome.doc [] :=
  ⟨spec_doc_match.1 emptyAssets "/openapi.json" "/docs/openapi.json" sampleSpec
      sampleConfig (by decide) rfl (by decide),
   spec_doc_match.2 emptyAssets "https://example.com/spec.json" "openapi.json" []⟩

/-- C1: the resolver classifies every stripped request path into
exactly one outcome in the fixed priority order given by
`classifyPath` — asset match first, then the configuration literal,
then (inline-spec mode only) the spec name, otherwise no match — and
when an inline spec's stripped name is a bundle asset key or the
configuration literal, the earlier check wins and the spec-document
outcome is unreachable for every path. -/
theorem handle_path_priority_order :
    ∀ (assets : String → Option (List Nat)) (uriPath originalPath : String)
      (sp : SpecOrUrl) (c : Config),
      handle_path assets uriPath originalPath sp c =
        renderOutcome (trimStartSlashes uriPath) originalPath sp c
          (classifyPath assets sp (trimStartSlashes uriPath)) ∧
      (∀ s : Spec, sp = SpecOrUrl.spec s →
        ((assets (trimStartSlashes s.name)).isSome = true ∨
          trimStartSlashes s.name = cfgLiteral) →
        ∀ (p : String) (b : List Nat), classifyPath assets sp p ≠ Outcome.doc b) := by
  intro assets uriPath originalPath sp c
  constructor
  · cases ha : assets (trimStartSlashes uriPath) with
    | some b => simp [handle_path, classifyPath, renderOutcome, ha]
    | none =>
      by_cases hc : trimStartSlashes uriPath = cfgLiteral
      · simp only [handle_path, classifyPath, ha]
        rw [if_pos hc, if_pos hc]
        rfl
      · cases sp with
        | spec s =>
          by_cases hn : trimStartSlashes uriPath = trimStartSlashes s.name
          · simp only [handle_path, classifyPath, ha]
            rw [if_neg hc, if_neg hc, if_pos hn, if_pos hn]
            rfl
          · simp only [handle_path, classifyPath, ha]
            rw [if_neg hc, if_neg hc, if_neg hn, if_neg hn]
            rfl
        | url u =>
          simp only [handle_path, classifyPath, ha]
          rw [if_neg hc, if_neg hc]
          rfl
  · rintro s rfl hcol p b hdoc
    unfold classifyPath at hdoc
    cases ha : assets p with
    | some b' =>
      simp only [ha] at hdoc
      exact Outcome.noConfusion hdoc
    | none =>
      simp only [ha] at hdoc
      by_cases hc : p = cfgLiteral
      · rw [if_pos hc] at hdoc
        exact Outcome.noConfusion hdoc
      · rw [if_neg hc] at hdoc
        by_cases hn : p = trimStartSlashes s.name
        · cases hcol with
          | inl hsome => rw [hn] at ha; rw [ha] at hsome; exact Bool.noConfusion hsome
          | inr hlit => exact hc (hn.trans hlit)
        · rw [if_neg hn] at hdoc
          exact Outcome.noConfusion hdoc

/-- Witness for C1: with a spec whose name collides with the bundled
asset `index.html`, no path classifies as the spec document, and a
concrete resolver run agrees with the rendered classification. -/
theorem handle_path_priority_order_witness :
    classifyPath sampleAssets (SpecOrUrl.spec collideSpec) "index.html" ≠
      Outcome.doc (strBytes "x") :=
  (handle_path_priority_order sampleAssets "/x" "/x" (SpecOrUrl.spec collideSpec)
      sampleConfig).2 collideSpec rfl (Or.inl (by decide)) "index.html" (strBytes "x")

/-- C2 counterexample: the claim's url computation replaces only the
trailing `"swagger-ui-config.json"` segment, but on an original path
with a second occurrence of the literal — reachable by mounting at a
prefix containing it — the source's `str::replace` rewrites both, so
the response body differs from the claimed one. -/
theorem config_url_trailing_replace_cex :
    handle_path emptyAssets "/swagger-ui-config.json"
        "/swagger-ui-config.json/swagger-ui-config.json"
        (SpecOrUrl.spec sampleSpec) sampleConfig ≠
      Response.mk 200 (some "application/json")
        (strBytes (Config.toJson (Config.mk
          (configUrlClaim "/swagger-ui-config.json/swagger-ui-config.json"
            sampleSpec.name)
          sampleConfig.options))) := by decide

/-- C2 (amended): for a config-path request under an inline-spec mount,
the response is 200 JSON whose body is the base configuration
serialised with its `url` field set to the original request path in
which every occurrence of `"swagger-ui-config.json"` is replaced by the
spec's name (the trailing segment is the only occurrence for ordinary
mount prefixes). -/
theorem config_response_replaces_all :
    ∀ (assets : String → Option (List Nat)) (uriPath originalPath : String)
      (s : Spec) (c : Config),
      trimStartSlashes uriPath = cfgLiteral →
      assets cfgLiteral = none →
      handle_path assets uriPath originalPath (SpecOrUrl.spec s) c =
        Response.mk 200 (some "application/json")
          (strBytes (Config.toJson
            (Config.mk (rustReplace originalPath cfgLiteral s.name) c.options))) := by
  intro assets uriPath originalPath s c hp ha
  have ha' : assets (trimStartSlashes uriPath) = none := by rw [hp]; exact ha
  simp [handle_path, ha', hp, ha, requestConfig]

/-- Witness for C2: for the `/docs` mount of the spec's scenario the
served configuration's url is `"/docs/openapi.json"`. -/
theorem config_response_replaces_all_witness :
    handle_path emptyAssets "/swagger-ui-config.json" "/docs/swagger-ui-config.json"
        (SpecOrUrl.spec sampleSpec) sampleConfig =
      Response.mk 200 (some "application/json")
        (strBytes (Config.toJson (Config.mk "/docs/openapi.json" []))) :=
  config_response_replaces_all emptyAssets "/swagger-ui-config.json"
    "/docs/swagger-ui-config.json" sampleSpec sampleConfig (by decide) rfl

/-- C3 counterexample: on the dotless path `"json"` the source's
extension extraction yields the whole path (Rust `split` always yields
at least one segment), mapping to `application/json`, while the claim's
rule ("empty string when the path contains no dot") yields the generic
octet-stream type. -/
theorem mime_ext_empty_cex :
    mime_type "json" ≠ mime_type_claim "json" := by decide

/-- C3 (amended): the content-type is derived by splitting the path on
dots and taking the final segment as the extension — the whole path
when no dot is present — and an unknown or empty extension degrades to
`application/octet-stream`. -/
theorem mime_type_ext_rule :
    ∀ p : String,
      mime_type p = (from_ext (extOfPath p)).getD "application/octet-stream" ∧
      (from_ext (extOfPath p) = none → mime_type p = "application/octet-stream") ∧
      ('.' ∉ p.toList → extOfPath p = p) := by
  intro p
  refine ⟨rfl, ?_, ?_⟩
  · intro h
    simp [mime_type, h]
  · intro h
    unfold extOfPath
    rw [splitOnChar_of_not_mem h]
    exact string_mk_toList p

/-- Witness for C3 at the dotless path `"README"`: the whole path is
the extension, which is unknown, so the type degrades to octet-stream. -/
theorem mime_type_ext_rule_witness :
    mime_type "README" = "application/octet-stream" ∧ extOfPath "README" = "README" :=
  ⟨(mime_type_ext_rule "README").2.1 (by decide),
   (mime_type_ext_rule "README").2.2 (by decide)⟩

/-- C8: the resolver is deterministic and stateless across requests —
serving any sequence of requests leaves the shared mount state (asset
bundle, spec source, base configuration) unchanged, and serving the
same request twice in a row yields the identical response both times. -/
theorem resolver_deterministic_stateless :
    ∀ (st : MountState) (uriPath originalPath : String)
      (reqs : List (String × String)),
      (serveAll st reqs).2 = st ∧
      (serveAll st [(uriPath, originalPath), (uriPath, originalPath)]).1 =
        [handle_path st.assets uriPath originalPath st.sp st.config,
         handle_path st.assets uriPath originalPath st.sp st.config] := by
  intro st uriPath originalPath reqs
  constructor
  · induction reqs with
    | nil => rfl
    | cons r rest ih => simp [serveAll, handle_path_st, ih]
  · rfl

/-- C9: in the response for the configuration path, every field of the
per-request configuration copy other than `url` — here, the opaque
display options — holds exactly the value of the base configuration
supplied at mount time; only `url` is overwritten. -/
theorem config_frame_condition :
    ∀ (assets : String → Option (List Nat)) (uriPath originalPath : String)
      (sp : SpecOrUrl) (c : Config),
      trimStartSlashes uriPath = cfgLiteral →
      assets cfgLiteral = none →
      handle_path assets uriPath originalPath sp c =
        Response.mk 200 (some "application/json")
          (strBytes ((requestConfig sp originalPath c).toJson)) ∧
      (requestConfig sp originalPath c).options = c.options := by
  intro assets uriPath originalPath sp c hp ha
  have ha' : assets (trimStartSlashes uriPath) = none := by rw [hp]; exact ha
  constructor
  · simp [handle_path, ha', hp, ha]
  · cases sp with
    | spec s => rfl
    | url u => rfl

/-- Witness for C9 at a concrete config-path request: the options of
the served configuration equal the base options. -/
theorem config_frame_condition_witness :
    handle_path emptyAssets "/swagger-ui-config.json" "/docs/swagger-ui-config.json"
        (SpecOrUrl.spec sampleSpec) sampleConfig =
      Response.mk 200 (some "application/json")
        (strBytes ((requestConfig (SpecOrUrl.spec sampleSpec)
          "/docs/swagger-ui-config.json" sampleConfig).toJson)) ∧
    (requestConfig (SpecOrUrl.spec sampleSpec) "/docs/swagger-ui-config.json"
        sampleConfig).options = sampleConfig.options :=
  config_frame_condition emptyAssets "/swagger-ui-config.json"
    "/docs/swagger-ui-config.json" (SpecOrUrl.spec sampleSpec) sampleConfig
    (by decide) rfl

/-- C10: the resolver is total — every request yields a well-formed
response that is either a 200 with a content-type and body or the empty
404 — and classification is invariant under extra leading slashes,
since all leading slashes are stripped before any comparison. -/
theorem handle_path_total_and_slash_invariant :
    ∀ (assets : String → Option (List Nat)) (uriPath originalPath : String)
      (sp : SpecOrUrl) (c : Config),
      ((∃ ct b, handle_path assets uriPath originalPath sp c =
          Response.mk 200 (some ct) b) ∨
        handle_path assets uriPath originalPath sp c = Response.mk 404 none []) ∧
      handle_path assets ("/" ++ uriPath) originalPath sp c =
        handle_path assets uriPath originalPath sp c := by
  intro assets uriPath originalPath sp c
  constructor
  · cases ha : assets (trimStartSlashes uriPath) with
    | some b =>
      left
      exact ⟨mime_type (trimStartSlashes uriPath), b, by simp [handle_path, ha]⟩
    | none =>
      by_cases hc : trimStartSlashes uriPath = cfgLiteral
      · left
        refine ⟨"application/json", strBytes ((requestConfig sp originalPath c).toJson), ?_⟩
        simp only [handle_path, ha]
        rw [if_pos hc]
      · cases sp with
        | spec s =>
          by_cases hn : trimStartSlashes uriPath = trimStartSlashes s.name
          · left
            refine ⟨"application/json", s.content, ?_⟩
            simp only [handle_path, ha]
            rw [if_neg hc, if_pos hn]
          · right
            simp only [handle_path, ha]
            rw [if_neg hc, if_neg hn]
        | url u =>
          right
          simp only [handle_path, ha]
          rw [if_neg hc]
  · unfold handle_path
    rw [trimStartSlashes_slash]
